import Mathlib

/-!
Shallow embedding of the multi-tenant bot process supervisor in `bot.py`:
the in-memory registry `RUNNING_BOTS`, the persisted `uploads` and `users`
tables, the bot files on disk, and the route handlers `start_bot`,
`stop_bot`, `edit_bot` (POST branch), `download_bot`, `delete_bot`, plus one
iteration of the body of the `monitor_bots` background loop.

Representation choices:
* A bot's key in the source is the string `f"{uid}_{name}"`; since a
  telegram id is all digits, `botname.startswith(f"{uid}_")` holds for
  exactly one uid, so the key is embedded as the pair `(owner, name)` and
  the prefix test becomes an equality test on `owner`.
* Python dicts and SQL tables are association lists; SQL `UPDATE ... WHERE
  bot_name=?` updates every row with that key, `DELETE` removes them.
* The OS process behind an entry is abstracted by `ProcessSpec`, a snapshot
  of how its handle reacts: what `poll()` returns, and whether
  `terminate()`, `wait(timeout=5)` or `kill()` raise, mirroring the
  `try/except` structure of `stop_bot`.
* Each operation returns the HTTP-level response, the new state, and an
  ordered trace of its side effects (spawn, registry mutation, DB status
  write-through, notification, activity log).
-/

/-- Configured administrator telegram id, `ADMIN_ID` in `config`. -/
def ADMIN_ID : Nat := 8465446299

/-- Default slot quota `DEFAULT_SLOTS` from the configuration. -/
def DEFAULT_SLOTS : Nat := 3

/-- The key `f"{uid}_{name}"` of a hosted bot, split into its two parts. -/
structure BotIdentity where
  owner : Nat
  name : String
deriving DecidableEq, Repr

/-- Snapshot of the behaviour of a spawned process handle. `exited = some c`
means `poll()` reports exit code `c` (`returncode`); `none` means the
process is still running. The three flags record whether the corresponding
call raises in `stop_bot`'s try blocks. -/
structure ProcessSpec where
  exited : Option Int
  terminateRaises : Bool
  waitTimesOut : Bool
  killRaises : Bool
deriving DecidableEq, Repr

/-- Value stored in `RUNNING_BOTS[botname]`: the dict built by `start_bot`.
`process` is an `Option` because `monitor_bots` reads it defensively with
`bot_info.get("process")`. -/
structure BotInfo where
  process : Option ProcessSpec
  startTime : Nat
  userId : Nat
deriving DecidableEq, Repr

/-- Row of the `uploads` table (the columns the supervisor touches). -/
structure UploadRecord where
  originalName : String
  fileSize : Nat
  status : String
  lastStarted : Option Nat
deriving DecidableEq, Repr

/-- Whole supervisor state: the registry dict, the `uploads` and `users`
tables, and the bot files under `BOTS_DIR` (path together with content). -/
structure SupState where
  runningBots : List (BotIdentity × BotInfo)
  uploads : List (BotIdentity × UploadRecord)
  users : List (Nat × Nat)
  files : List (BotIdentity × String)
deriving DecidableEq, Repr

/-- Association-list lookup (first binding wins, as in a dict). -/
def lookupBy {α β : Type} [DecidableEq α] : List (α × β) → α → Option β
  | [], _ => none
  | kv :: rest, a => if kv.1 = a then some kv.2 else lookupBy rest a

/-- Key membership test, `botname in RUNNING_BOTS`. -/
def containsKey {α β : Type} [DecidableEq α] (l : List (α × β)) (a : α) : Bool :=
  (lookupBy l a).isSome

/-- Removal of every binding of a key: `dict.pop(key, None)` / SQL `DELETE`. -/
def eraseKey {α β : Type} [DecidableEq α] : List (α × β) → α → List (α × β)
  | [], _ => []
  | kv :: rest, a => if kv.1 = a then eraseKey rest a else kv :: eraseKey rest a

/-- SQL `UPDATE ... WHERE key = a`: rewrite every row bound to `a`. -/
def updateKey {α β : Type} [DecidableEq α] (f : β → β) : List (α × β) → α → List (α × β)
  | [], _ => []
  | kv :: rest, a =>
    if kv.1 = a then (kv.1, f kv.2) :: updateKey f rest a else kv :: updateKey f rest a

/-- Keys are pairwise distinct, as they are in a Python dict. -/
def keysDistinct {α β : Type} [DecidableEq α] : List (α × β) → Bool
  | [] => true
  | kv :: rest => !(containsKey rest kv.1) && keysDistinct rest

/-- Well-formed state: the registry, being a dict, has distinct keys. -/
def WF (s : SupState) : Prop := keysDistinct s.runningBots = true

/-- Count of registry entries owned by a user, `get_running_bots_count`'s
loop over the keys of `RUNNING_BOTS`. -/
def countOwned : List (BotIdentity × BotInfo) → Nat → Nat
  | [], _ => 0
  | kv :: rest, uid => (if kv.1.owner = uid then 1 else 0) + countOwned rest uid

/-- Embeds `get_running_bots_count(user_id)`. -/
def get_running_bots_count (s : SupState) (uid : Nat) : Nat :=
  countOwned s.runningBots uid

/-- Embeds `get_user_slots(user_id)`: the user's `slots` column, or
`DEFAULT_SLOTS` when the row is missing. -/
def get_user_slots (s : SupState) (uid : Nat) : Nat :=
  match lookupBy s.users uid with
  | some n => n
  | none => DEFAULT_SLOTS

/-- Responses the handlers return (string body and HTTP code collapsed to a
tag): redirect-to-dashboard on success, the various 4xx/5xx errors, and the
`send_file` response of `download_bot`. -/
inductive Resp
  | redirect
  | accessDenied
  | notFound
  | alreadyRunning
  | quotaLimit (slots : Nat)
  | notRunning
  | startFailed
  | stopFailed
  | noCode
  | fileSent
deriving DecidableEq, Repr

/-- Observable side effects, in program order. -/
inductive Event
  | spawnEv (b : BotIdentity)
  | regInsert (b : BotIdentity)
  | regRemove (b : BotIdentity)
  | dbStatus (b : BotIdentity) (status : String)
  | fileWrite (b : BotIdentity) (code : String)
  | notifyCrash (user : Nat) (b : BotIdentity) (code : Int)
  | audit (user : Nat) (action : String)
deriving DecidableEq, Repr

/-- Result of one handler call: response, next state, effect trace. -/
structure OpOut where
  resp : Resp
  state : SupState
  trace : List Event
deriving DecidableEq, Repr

/-- Environment of one `start_bot` call: the clock, and what
`subprocess.Popen` does (`none` = raises, `some p` = returns a process that
will behave as `p`). -/
structure StartEnv where
  now : Nat
  spawnResult : Option ProcessSpec
deriving DecidableEq, Repr

/-- The guard cascade at the top of `start_bot`, in source order: ownership
by filename prefix (note: no `ADMIN_ID` exemption here, unlike the other
handlers), file existence, `botname in RUNNING_BOTS`, then the slot check
`running_count >= user_slots`. Returns the error response, or `none` when
admission succeeds. -/
def start_guard (uid : Nat) (b : BotIdentity) (s : SupState) : Option Resp :=
  if b.owner ≠ uid then some .accessDenied
  else if (lookupBy s.files b).isNone then some .notFound
  else if containsKey s.runningBots b then some .alreadyRunning
  else if get_user_slots s uid ≤ get_running_bots_count s uid then
    some (.quotaLimit (get_user_slots s uid))
  else none

/-- Row rewrite of `UPDATE uploads SET status='running', last_started=?`. -/
def markRunning (now : Nat) (r : UploadRecord) : UploadRecord :=
  { r with status := "running", lastStarted := some now }

/-- Row rewrite of `UPDATE uploads SET status='stopped'`. -/
def markStopped (r : UploadRecord) : UploadRecord :=
  { r with status := "stopped" }

/-- State change of a successful spawn: insert the entry into
`RUNNING_BOTS`, then `UPDATE uploads SET status='running', last_started=now`. -/
def start_commit (env : StartEnv) (uid : Nat) (b : BotIdentity) (p : ProcessSpec)
    (s : SupState) : SupState :=
  let s1 := { s with runningBots := (b, ⟨some p, env.now, uid⟩) :: eraseKey s.runningBots b }
  { s1 with uploads := updateKey (markRunning env.now) s1.uploads b }

/-- State change of a completed stop: `RUNNING_BOTS.pop(botname, None)`,
then `UPDATE uploads SET status='stopped'`; shared by `stop_bot` and the
crash monitor. -/
def stop_commit (b : BotIdentity) (s : SupState) : SupState :=
  let s1 := { s with runningBots := eraseKey s.runningBots b }
  { s1 with uploads := updateKey markStopped s1.uploads b }

/-- Embeds the `/startbot/<botname>` handler `start_bot` for an
authenticated caller `uid`. -/
def start_bot (env : StartEnv) (uid : Nat) (b : BotIdentity) (s : SupState) : OpOut :=
  match start_guard uid b s with
  | some r => ⟨r, s, []⟩
  | none =>
    match env.spawnResult with
    | none => ⟨.startFailed, s, []⟩
    | some p =>
      ⟨.redirect, start_commit env uid b p s,
        [.spawnEv b, .regInsert b, .dbStatus b "running", .audit uid "bot_started"]⟩

/-- Embeds the `/stopbot/<botname>` handler `stop_bot` for an authenticated
caller `uid`. The graceful-terminate / wait / forced-kill cascade follows
the nested try blocks: if `terminate()` raises, or `kill()` raises after the
wait timed out, the outer `except` returns a 500 with the registry entry
still in place. -/
def stop_bot (uid : Nat) (b : BotIdentity) (s : SupState) : OpOut :=
  if b.owner ≠ uid ∧ uid ≠ ADMIN_ID then ⟨.accessDenied, s, []⟩
  else
    match lookupBy s.runningBots b with
    | none => ⟨.notRunning, s, []⟩
    | some info =>
      match info.process with
      | none => ⟨.stopFailed, s, []⟩
      | some p =>
        if p.terminateRaises then ⟨.stopFailed, s, []⟩
        else if p.waitTimesOut ∧ p.killRaises then ⟨.stopFailed, s, []⟩
        else
          ⟨.redirect, stop_commit b s,
            [.regRemove b, .dbStatus b "stopped", .audit uid "bot_stopped"]⟩

/-- File rewrite performed by the POST branch of `edit_bot` before any
restart: `open(path, "w"); f.write(code)`. -/
def edit_write (b : BotIdentity) (code : String) (s : SupState) : SupState :=
  { s with files := updateKey (fun _ => code) s.files b }

/-- Embeds the POST branch of the `/editbot/<botname>` handler: ownership
check (with `ADMIN_ID` exemption), file-existence check, `if not code`
check, then the file write; if the bot is in `RUNNING_BOTS` it calls
`stop_bot` and `start_bot` directly, DISCARDING their return values, and
redirects to the dashboard unconditionally. -/
def edit_bot (env : StartEnv) (uid : Nat) (b : BotIdentity) (code : String)
    (s : SupState) : OpOut :=
  if b.owner ≠ uid ∧ uid ≠ ADMIN_ID then ⟨.accessDenied, s, []⟩
  else if (lookupBy s.files b).isNone then ⟨.notFound, s, []⟩
  else if code = "" then ⟨.noCode, s, []⟩
  else
    let s1 := edit_write b code s
    if containsKey s1.runningBots b then
      let o1 := stop_bot uid b s1
      let o2 := start_bot env uid b o1.state
      ⟨.redirect, o2.state,
        .fileWrite b code :: (o1.trace ++ o2.trace ++ [.audit uid "bot_edited"])⟩
    else
      ⟨.redirect, s1, [.fileWrite b code, .audit uid "bot_edited"]⟩

/-- Embeds the `/download/<botname>` handler: ownership check with
`ADMIN_ID` exemption, file-existence check, then `send_file` with no state
change. -/
def download_bot (uid : Nat) (b : BotIdentity) (s : SupState) : OpOut :=
  if b.owner ≠ uid ∧ uid ≠ ADMIN_ID then ⟨.accessDenied, s, []⟩
  else if (lookupBy s.files b).isNone then ⟨.notFound, s, []⟩
  else ⟨.fileSent, s, [.audit uid "bot_downloaded"]⟩

/-- Embeds the `/deletebot/<botname>` handler: ownership check with
`ADMIN_ID` exemption; if the bot is registered, `stop_bot` is invoked and
its result IGNORED; then the file is removed if present and the `uploads`
rows are deleted. -/
def delete_bot (uid : Nat) (b : BotIdentity) (s : SupState) : OpOut :=
  if b.owner ≠ uid ∧ uid ≠ ADMIN_ID then ⟨.accessDenied, s, []⟩
  else
    let o1 := if containsKey s.runningBots b then stop_bot uid b s else ⟨.redirect, s, []⟩
    let s2 := { o1.state with
      files := eraseKey o1.state.files b,
      uploads := eraseKey o1.state.uploads b }
    ⟨.redirect, s2, o1.trace ++ [.audit uid "bot_deleted"]⟩

/-- What `monitor_bots` sees for one entry: `bot_info.get("process")`
followed by `process.poll()`; `none` when the handle is missing or the
process has not exited. -/
def monitor_entry_exit (info : BotInfo) : Option Int :=
  match info.process with
  | none => none
  | some p => p.exited

/-- Effects the monitor body emits for one snapshot entry. -/
def monitor_entry_trace (e : BotIdentity × BotInfo) : List Event :=
  match monitor_entry_exit e.2 with
  | none => []
  | some c =>
    [.regRemove e.1, .dbStatus e.1 "stopped", .notifyCrash e.2.userId e.1 c,
     .audit e.2.userId "bot_crashed"]

/-- State change the monitor body performs for one snapshot entry:
`RUNNING_BOTS.pop(botname, None)` then
`UPDATE uploads SET status='stopped'`. -/
def monitor_entry_state (s : SupState) (e : BotIdentity × BotInfo) : SupState :=
  match monitor_entry_exit e.2 with
  | none => s
  | some _ => stop_commit e.1 s

/-- One step of the monitor's `for` loop, threading state and trace. -/
def monitor_step (acc : SupState × List Event) (e : BotIdentity × BotInfo) :
    SupState × List Event :=
  (monitor_entry_state acc.1 e, acc.2 ++ monitor_entry_trace e)

/-- One iteration of the body of the `while True` loop of `monitor_bots`:
iterate over the snapshot `list(RUNNING_BOTS.items())`, reconciling every
entry whose process has exited. -/
def monitor_bots_cycle (s : SupState) : SupState × List Event :=
  s.runningBots.foldl monitor_step (s, [])

/-- Membership test on a list of keys. -/
def memB {α : Type} [DecidableEq α] : List α → α → Bool
  | [], _ => false
  | x :: rest, a => if x = a then true else memB rest a

/-- Identity a registry-mutation event is about, if the event is one. -/
def regMutKey : Event → Option BotIdentity
  | .regInsert b => some b
  | .regRemove b => some b
  | _ => none

/-- Identity a persisted-status write is about, if the event is one. -/
def statusKey : Event → Option BotIdentity
  | .dbStatus b _ => some b
  | _ => none

/-- Checks the ordering guarantee on a trace: every write-through of a
persisted status for an identity is preceded, earlier in the trace, by a
registry mutation for that same identity. `seen` accumulates the identities
whose registry mutation has already happened. -/
def writesAfterMutations (seen : List BotIdentity) : List Event → Bool
  | [] => true
  | e :: rest =>
    match statusKey e with
    | some b => memB seen b && writesAfterMutations seen rest
    | none =>
      match regMutKey e with
      | some b => writesAfterMutations (b :: seen) rest
      | none => writesAfterMutations seen rest

/-- Selects crash notifications concerning a given identity. -/
def notifyFor (b : BotIdentity) : Event → Bool
  | .notifyCrash _ b2 _ => decide (b2 = b)
  | _ => false

/-- Program counter of one thread running `start_bot`, split at its atomic
steps: the guard cascade reads the shared state, then `subprocess.Popen`
runs (unlocked, releasing control), then the registry insert and DB write
land. The source protects none of this with a lock. -/
inductive StartPhase
  | ready
  | spawning
  | inserting (p : ProcessSpec)
  | phaseDone (r : Resp)
deriving DecidableEq, Repr

/-- Two request threads racing through `start_bot` on the same identity
over the shared `RUNNING_BOTS`, plus a count of child processes created. -/
structure RaceState where
  shared : SupState
  t0 : StartPhase
  t1 : StartPhase
  spawned : Nat
deriving DecidableEq, Repr

/-- One atomic step of one thread of the race model. The third component
counts processes created by the step. -/
def race_thread_step (env : StartEnv) (uid : Nat) (b : BotIdentity) (sh : SupState) :
    StartPhase → SupState × StartPhase × Nat
  | .ready =>
    match start_guard uid b sh with
    | some r => (sh, .phaseDone r, 0)
    | none => (sh, .spawning, 0)
  | .spawning =>
    match env.spawnResult with
    | none => (sh, .phaseDone .startFailed, 0)
    | some p => (sh, .inserting p, 1)
  | .inserting p => (start_commit env uid b p sh, .phaseDone .redirect, 0)
  | .phaseDone r => (sh, .phaseDone r, 0)

/-- Scheduler step: `false` advances thread 0, `true` advances thread 1. -/
def race_step (env : StartEnv) (uid : Nat) (b : BotIdentity) (c : RaceState) (t : Bool) :
    RaceState :=
  if t then
    let r := race_thread_step env uid b c.shared c.t1
    ⟨r.1, c.t0, r.2.1, c.spawned + r.2.2⟩
  else
    let r := race_thread_step env uid b c.shared c.t0
    ⟨r.1, r.2.1, c.t1, c.spawned + r.2.2⟩

/-- Runs a whole schedule of the two racing `start_bot` calls. -/
def race_run (env : StartEnv) (uid : Nat) (b : BotIdentity) (sched : List Bool)
    (c : RaceState) : RaceState :=
  sched.foldl (race_step env uid b) c

/-- Process handle of a live, well-behaved process. -/
def pLive : ProcessSpec := ⟨none, false, false, false⟩

/-- Process handle that has exited with code 1. -/
def pExit1 : ProcessSpec := ⟨some 1, false, false, false⟩

/-- Process handle whose `terminate()` raises. -/
def pStuck : ProcessSpec := ⟨none, true, false, false⟩

/-- Process handle whose graceful wait times out and whose `kill()` raises. -/
def pKill : ProcessSpec := ⟨none, false, true, true⟩

/-- Sample identities of user 5. -/
def bA : BotIdentity := ⟨5, "a.py"⟩

/-- Second sample identity of user 5. -/
def bB : BotIdentity := ⟨5, "b.py"⟩

/-- Sample upload row. -/
def recA : UploadRecord := ⟨"a.py", 10, "running", none⟩

/-- Environment whose spawn succeeds with a live process. -/
def envOk : StartEnv := ⟨7, some pLive⟩

/-- Environment whose `subprocess.Popen` raises. -/
def envNoSpawn : StartEnv := ⟨7, none⟩

/-- Sample state: `bA` live, quota 1 slot, both files stored. -/
def sOne : SupState :=
  ⟨[(bA, ⟨some pLive, 0, 5⟩)], [(bA, recA), (bB, recA)], [(5, 1)], [(bA, "x"), (bB, "y")]⟩

/-- Sample state: `bA` registered but its file is gone (reachable via
`delete_bot` after a failed `stop_bot`). -/
def sGhost : SupState :=
  ⟨[(bA, ⟨some pLive, 0, 5⟩)], [(bA, recA)], [(5, 3)], []⟩

/-- Sample state: `bA` registered with a handle whose terminate raises. -/
def sStuck : SupState :=
  ⟨[(bA, ⟨some pStuck, 0, 5⟩)], [(bA, recA)], [(5, 3)], [(bA, "x")]⟩

/-- Sample state: `bA` registered with a handle whose wait times out and
whose kill raises. -/
def sKill : SupState :=
  ⟨[(bA, ⟨some pKill, 0, 5⟩)], [(bA, recA)], [(5, 3)], [(bA, "x")]⟩

/-- Sample state: `bB` stored but idle, nothing running, quota 3. -/
def sPlain : SupState :=
  ⟨[], [(bB, recA)], [(5, 3)], [(bB, "y")]⟩

/-- Sample state: `bA` registered, its process exited with code 1, `bB`
registered and live. -/
def sDead : SupState :=
  ⟨[(bA, ⟨some pExit1, 0, 5⟩), (bB, ⟨some pLive, 0, 5⟩)], [(bA, recA), (bB, recA)],
   [(5, 3)], [(bA, "x"), (bB, "y")]⟩

/-- Initial configuration of the two-thread race on `bA` from `sPlain`
extended with `bA`'s file and row. -/
def sRace : SupState :=
  ⟨[], [(bA, recA)], [(5, 1)], [(bA, "x")]⟩

/-- Registry value of a live well-behaved process of user 5. -/
def infoLive : BotInfo := ⟨some pLive, 0, 5⟩

/-- Registry value of a process that exited with code 1, owner 5. -/
def infoDead : BotInfo := ⟨some pExit1, 0, 5⟩

/-- Registry value whose process handle is missing. -/
def infoNoHandle : BotInfo := ⟨none, 0, 5⟩

/-- Sample state: `bA` registered without a process handle. -/
def sNoHandle : SupState :=
  ⟨[(bA, infoNoHandle)], [(bA, recA)], [(5, 3)], [(bA, "x")]⟩

section AssocLemmas

variable {α β : Type} [DecidableEq α]

/-- Erasing a key removes every binding of it. -/
theorem lookup_eraseKey_self (l : List (α × β)) (a : α) :
    lookupBy (eraseKey l a) a = none := by
  induction l with
  | nil => simp [eraseKey, lookupBy]
  | cons kv rest ih =>
    by_cases h : kv.1 = a <;> simp [eraseKey, lookupBy, h, ih]

/-- Erasing one key leaves the bindings of any other key alone. -/
theorem lookup_eraseKey_ne (l : List (α × β)) (a x : α) (h : x ≠ a) :
    lookupBy (eraseKey l a) x = lookupBy l x := by
  have hax : a ≠ x := fun hh => h hh.symm
  induction l with
  | nil => simp [eraseKey]
  | cons kv rest ih =>
    by_cases hk : kv.1 = a
    · simp [eraseKey, lookupBy, hk, hax, ih]
    · by_cases hx : kv.1 = x <;> simp [eraseKey, lookupBy, hk, hx, h, ih]

/-- Membership form of `lookup_eraseKey_self`. -/
theorem containsKey_eraseKey_self (l : List (α × β)) (a : α) :
    containsKey (eraseKey l a) a = false := by
  simp [containsKey, lookup_eraseKey_self]

/-- Erasure cannot make an absent key present. -/
theorem containsKey_eraseKey_of_false (l : List (α × β)) (a x : α)
    (h : containsKey l x = false) : containsKey (eraseKey l a) x = false := by
  by_cases hx : x = a
  · subst hx; exact containsKey_eraseKey_self l x
  · simpa [containsKey, lookup_eraseKey_ne l a x hx] using h

/-- Erasing a key that is not bound is a no-op. -/
theorem eraseKey_of_containsKey_false (l : List (α × β)) (a : α)
    (h : containsKey l a = false) : eraseKey l a = l := by
  induction l with
  | nil => simp [eraseKey]
  | cons kv rest ih =>
    by_cases hk : kv.1 = a
    · simp [containsKey, lookupBy, hk] at h
    · simp [containsKey, lookupBy, hk] at h
      have hr : containsKey rest a = false := by simp [containsKey, h]
      simp [eraseKey, hk, ih hr]

/-- Updating a key rewrites exactly its first binding, seen through lookup. -/
theorem lookup_updateKey_self (f : β → β) (l : List (α × β)) (a : α) :
    lookupBy (updateKey f l a) a = (lookupBy l a).map f := by
  induction l with
  | nil => simp [updateKey, lookupBy]
  | cons kv rest ih =>
    by_cases h : kv.1 = a <;> simp [updateKey, lookupBy, h, ih]

/-- Updating one key leaves the bindings of any other key alone. -/
theorem lookup_updateKey_ne (f : β → β) (l : List (α × β)) (a x : α) (h : x ≠ a) :
    lookupBy (updateKey f l a) x = lookupBy l x := by
  have hax : a ≠ x := fun hh => h hh.symm
  induction l with
  | nil => simp [updateKey]
  | cons kv rest ih =>
    by_cases hk : kv.1 = a
    · simp [updateKey, lookupBy, hk, hax, ih]
    · by_cases hx : kv.1 = x <;> simp [updateKey, lookupBy, hk, hx, h, ih]

/-- A present pair makes its key present. -/
theorem containsKey_of_mem {l : List (α × β)} {a : α} {v : β} (h : (a, v) ∈ l) :
    containsKey l a = true := by
  induction l with
  | nil => simp at h
  | cons kv rest ih =>
    rcases List.mem_cons.mp h with h1 | h1
    · simp [containsKey, lookupBy, ← h1]
    · have hr := ih h1
      by_cases hk : kv.1 = a
      · simp [containsKey, lookupBy, hk]
      · simpa [containsKey, lookupBy, hk] using hr

/-- A successful lookup exhibits a member pair. -/
theorem mem_of_lookupBy {l : List (α × β)} {a : α} {v : β}
    (h : lookupBy l a = some v) : (a, v) ∈ l := by
  induction l with
  | nil => simp [lookupBy] at h
  | cons kv rest ih =>
    by_cases hk : kv.1 = a
    · simp [lookupBy, hk] at h
      have : (a, v) = kv := by
        obtain ⟨k1, k2⟩ := kv
        simp_all
      rw [this]
      exact List.mem_cons_self _ _
    · simp [lookupBy, hk] at h
      exact List.mem_cons_of_mem _ (ih h)

/-- An absent key differs from the key of every member pair. -/
theorem ne_of_containsKey_false {l : List (α × β)} {a : α}
    (h : containsKey l a = false) : ∀ kv ∈ l, kv.1 ≠ a := by
  intro kv hm he
  have := @containsKey_of_mem _ _ _ l a kv.2 (by simpa [← he] using hm)
  simp [this] at h

/-- Unfolding of `keysDistinct` at a cons cell. -/
theorem keysDistinct_cons {kv : α × β} {rest : List (α × β)}
    (h : keysDistinct (kv :: rest) = true) :
    containsKey rest kv.1 = false ∧ keysDistinct rest = true := by
  simpa [keysDistinct, Bool.and_eq_true, Bool.not_eq_true'] using h

/-- With distinct keys, every member pair bound to a key carries the value
the lookup returns. -/
theorem val_eq_of_keysDistinct {l : List (α × β)} {a : α} {v : β}
    (hd : keysDistinct l = true) (hl : lookupBy l a = some v) :
    ∀ kv ∈ l, kv.1 = a → kv.2 = v := by
  induction l with
  | nil => simp [lookupBy] at hl
  | cons kv0 rest ih =>
    obtain ⟨hc, hrest⟩ := keysDistinct_cons hd
    intro kv hm hk
    rcases List.mem_cons.mp hm with h1 | h1
    · subst h1
      simp [lookupBy, hk] at hl
      exact hl
    · by_cases hk0 : kv0.1 = a
      · exact absurd hk (ne_of_containsKey_false (hk0 ▸ hc) kv h1)
      · simp [lookupBy, hk0] at hl
        exact ih hrest hl kv h1 hk

end AssocLemmas

/-- Erasing a bot can only lower any user's running count. -/
theorem countOwned_eraseKey_le (l : List (BotIdentity × BotInfo)) (a : BotIdentity)
    (u : Nat) : countOwned (eraseKey l a) u ≤ countOwned l u := by
  induction l with
  | nil => simp [eraseKey]
  | cons kv rest ih =>
    by_cases hk : kv.1 = a
    · calc countOwned (eraseKey (kv :: rest) a) u = countOwned (eraseKey rest a) u := by
            simp [eraseKey, hk]
        _ ≤ countOwned rest u := ih
        _ ≤ countOwned (kv :: rest) u := by simp [countOwned]
    · simp only [eraseKey, hk, if_false, countOwned]
      exact Nat.add_le_add_left ih _

/-- Passing the whole guard cascade of `start_bot` means: the caller owns
the bot, its file exists, it is not yet registered, and the caller is
strictly below the slot quota. -/
theorem start_guard_none {uid : Nat} {b : BotIdentity} {s : SupState}
    (h : start_guard uid b s = none) :
    b.owner = uid ∧ (lookupBy s.files b).isNone = false ∧
      containsKey s.runningBots b = false ∧
      get_running_bots_count s uid < get_user_slots s uid := by
  unfold start_guard at h
  split_ifs at h with h1 h2 h3 h4
  · exact ⟨Decidable.not_not.mp h1, Bool.not_eq_true _ ▸ h2, Bool.not_eq_true _ ▸ h3,
      Nat.lt_of_not_le h4⟩

/-- A failed guard short-circuits `start_bot` with no side effect. -/
theorem start_bot_of_guard_some {env : StartEnv} {uid : Nat} {b : BotIdentity}
    {s : SupState} {r : Resp} (h : start_guard uid b s = some r) :
    start_bot env uid b s = ⟨r, s, []⟩ := by
  unfold start_bot
  rw [h]

/-- Exhaustive case analysis of `start_bot`. -/
theorem start_bot_cases (env : StartEnv) (uid : Nat) (b : BotIdentity) (s : SupState) :
    (∃ r, start_guard uid b s = some r ∧ start_bot env uid b s = ⟨r, s, []⟩)
    ∨ (start_guard uid b s = none ∧ env.spawnResult = none ∧
        start_bot env uid b s = ⟨.startFailed, s, []⟩)
    ∨ (∃ p, start_guard uid b s = none ∧ env.spawnResult = some p ∧
        start_bot env uid b s = ⟨.redirect, start_commit env uid b p s,
          [.spawnEv b, .regInsert b, .dbStatus b "running", .audit uid "bot_started"]⟩) := by
  unfold start_bot
  cases hg : start_guard uid b s with
  | some r => exact Or.inl ⟨r, rfl, rfl⟩
  | none =>
    cases hs : env.spawnResult with
    | none => exact Or.inr (Or.inl ⟨rfl, rfl, rfl⟩)
    | some p => exact Or.inr (Or.inr ⟨p, rfl, rfl, rfl⟩)

/-- Whenever `start_bot` does not succeed, it changes nothing and emits
nothing. -/
theorem start_bot_ne_redirect {env : StartEnv} {uid : Nat} {b : BotIdentity}
    {s : SupState} (h : (start_bot env uid b s).resp ≠ .redirect) :
    (start_bot env uid b s).state = s ∧ (start_bot env uid b s).trace = [] := by
  rcases start_bot_cases env uid b s with ⟨r, _, he⟩ | ⟨_, _, he⟩ | ⟨p, _, _, he⟩
  · rw [he]
    exact ⟨rfl, rfl⟩
  · rw [he]
    exact ⟨rfl, rfl⟩
  · rw [he] at h ⊢
    simp at h

/-- Exhaustive case analysis of `stop_bot`: either it fails with no state
change and no effect, or it completes, having passed the ownership check on
a registered bot whose handle cooperated. -/
theorem stop_bot_cases (uid : Nat) (b : BotIdentity) (s : SupState) :
    ((stop_bot uid b s).state = s ∧ (stop_bot uid b s).trace = [] ∧
      (stop_bot uid b s).resp ≠ .redirect)
    ∨ (stop_bot uid b s = ⟨.redirect, stop_commit b s,
          [.regRemove b, .dbStatus b "stopped", .audit uid "bot_stopped"]⟩ ∧
        ¬(b.owner ≠ uid ∧ uid ≠ ADMIN_ID) ∧ containsKey s.runningBots b = true) := by
  unfold stop_bot
  by_cases h1 : b.owner ≠ uid ∧ uid ≠ ADMIN_ID
  · rw [if_pos h1]
    exact Or.inl ⟨rfl, rfl, by simp⟩
  · rw [if_neg h1]
    cases hl : lookupBy s.runningBots b with
    | none =>
      simp only [hl]
      exact Or.inl ⟨by simp, by simp, by simp⟩
    | some info =>
      simp only [hl]
      cases hp : info.process with
      | none =>
        simp only [hp]
        exact Or.inl ⟨by simp, by simp, by simp⟩
      | some p =>
        simp only [hp]
        by_cases ht : p.terminateRaises = true
        · rw [if_pos ht]
          exact Or.inl ⟨rfl, rfl, by simp⟩
        · rw [if_neg ht]
          by_cases hk : p.waitTimesOut = true ∧ p.killRaises = true
          · rw [if_pos hk]
            exact Or.inl ⟨rfl, rfl, by simp⟩
          · rw [if_neg hk]
            exact Or.inr ⟨rfl, h1, by simp [containsKey, hl]⟩

/-- A redirect from `stop_bot` pins down the whole call. -/
theorem stop_bot_redirect {uid : Nat} {b : BotIdentity} {s : SupState}
    (h : (stop_bot uid b s).resp = .redirect) :
    stop_bot uid b s = ⟨.redirect, stop_commit b s,
        [.regRemove b, .dbStatus b "stopped", .audit uid "bot_stopped"]⟩ ∧
      ¬(b.owner ≠ uid ∧ uid ≠ ADMIN_ID) ∧ containsKey s.runningBots b = true := by
  rcases stop_bot_cases uid b s with ⟨_, _, hr⟩ | hok
  · exact absurd h hr
  · exact hok

/-- The full success path of `stop_bot`: ownership passes, the bot is
registered with a handle, terminate does not raise, and kill does not raise
when the wait timed out. -/
theorem stop_bot_success {uid : Nat} {b : BotIdentity} {s : SupState}
    {info : BotInfo} {p : ProcessSpec}
    (hown : ¬(b.owner ≠ uid ∧ uid ≠ ADMIN_ID))
    (hl : lookupBy s.runningBots b = some info) (hp : info.process = some p)
    (ht : p.terminateRaises = false)
    (hk : ¬(p.waitTimesOut = true ∧ p.killRaises = true)) :
    stop_bot uid b s = ⟨.redirect, stop_commit b s,
      [.regRemove b, .dbStatus b "stopped", .audit uid "bot_stopped"]⟩ := by
  unfold stop_bot
  rw [if_neg hown]
  simp only [hl, hp, ht]
  rw [if_neg (by simp), if_neg hk]

/-- The failure path of `stop_bot` on a registered bot: terminate raises, or
the wait times out and kill raises; the handler returns a 500 with the entry
still registered. -/
theorem stop_bot_failure {uid : Nat} {b : BotIdentity} {s : SupState}
    {info : BotInfo} {p : ProcessSpec}
    (hown : ¬(b.owner ≠ uid ∧ uid ≠ ADMIN_ID))
    (hl : lookupBy s.runningBots b = some info) (hp : info.process = some p)
    (hbad : p.terminateRaises = true ∨ (p.waitTimesOut = true ∧ p.killRaises = true)) :
    stop_bot uid b s = ⟨.stopFailed, s, []⟩ := by
  unfold stop_bot
  rw [if_neg hown]
  simp only [hl, hp]
  rcases hbad with ht | hk
  · rw [if_pos ht]
  · by_cases ht : p.terminateRaises = true
    · rw [if_pos ht]
    · rw [if_neg ht, if_pos hk]

/-- Starting touches neither the `users` table nor anyone's quota. -/
theorem users_start_commit (env : StartEnv) (uid : Nat) (b : BotIdentity)
    (p : ProcessSpec) (s : SupState) : (start_commit env uid b p s).users = s.users := rfl

/-- Stopping touches neither the `users` table nor anyone's quota. -/
theorem users_stop_commit (b : BotIdentity) (s : SupState) :
    (stop_commit b s).users = s.users := rfl

/-- The slot quota only depends on the `users` table. -/
theorem get_user_slots_congr {s s' : SupState} (h : s'.users = s.users) (u : Nat) :
    get_user_slots s' u = get_user_slots s u := by
  simp [get_user_slots, h]

/-- A committed start adds exactly one entry, owned by the caller. -/
theorem countOwned_start_commit (env : StartEnv) (uid : Nat) (b : BotIdentity)
    (p : ProcessSpec) (s : SupState) (hc : containsKey s.runningBots b = false) (u : Nat) :
    countOwned (start_commit env uid b p s).runningBots u
      = (if b.owner = u then 1 else 0) + countOwned s.runningBots u := by
  unfold start_commit
  simp only [countOwned]
  rw [eraseKey_of_containsKey_false _ _ hc]

/-- A committed stop never raises anyone's running count. -/
theorem countOwned_stop_commit_le (b : BotIdentity) (s : SupState) (u : Nat) :
    countOwned (stop_commit b s).runningBots u ≤ countOwned s.runningBots u :=
  countOwned_eraseKey_le _ _ _

/-- The state component of the monitor fold ignores the trace component. -/
theorem monitor_fold_fst : ∀ (l : List (BotIdentity × BotInfo)) (acc : SupState × List Event),
    (l.foldl monitor_step acc).1 = l.foldl monitor_entry_state acc.1
  | [], _ => rfl
  | e :: rest, acc => by
    simp only [List.foldl_cons]
    rw [monitor_fold_fst rest _]
    rfl

/-- The trace component of the monitor fold is the concatenation of the
per-entry traces. -/
theorem monitor_fold_snd : ∀ (l : List (BotIdentity × BotInfo)) (acc : SupState × List Event),
    (l.foldl monitor_step acc).2 = acc.2 ++ (l.map monitor_entry_trace).flatten
  | [], acc => by simp
  | e :: rest, acc => by
    simp only [List.foldl_cons, List.map_cons, List.flatten_cons]
    rw [monitor_fold_snd rest _]
    simp [monitor_step, List.append_assoc]

/-- State reached by one monitor iteration, as a plain fold. -/
theorem monitor_cycle_fst (s : SupState) :
    (monitor_bots_cycle s).1 = s.runningBots.foldl monitor_entry_state s :=
  monitor_fold_fst _ _

/-- Trace emitted by one monitor iteration, as a concatenation. -/
theorem monitor_cycle_snd (s : SupState) :
    (monitor_bots_cycle s).2 = (s.runningBots.map monitor_entry_trace).flatten := by
  simpa using monitor_fold_snd s.runningBots (s, [])

/-- One monitor step never touches the `users` table. -/
theorem monitor_entry_state_users (s : SupState) (e : BotIdentity × BotInfo) :
    (monitor_entry_state s e).users = s.users := by
  unfold monitor_entry_state
  cases monitor_entry_exit e.2 <;> rfl

/-- One monitor step never raises anyone's running count. -/
theorem monitor_entry_state_count_le (s : SupState) (e : BotIdentity × BotInfo) (u : Nat) :
    countOwned (monitor_entry_state s e).runningBots u ≤ countOwned s.runningBots u := by
  unfold monitor_entry_state
  cases monitor_entry_exit e.2
  · exact Nat.le_refl _
  · exact countOwned_stop_commit_le _ _ _

/-- The monitor fold never touches the `users` table. -/
theorem monitor_fold_users : ∀ (l : List (BotIdentity × BotInfo)) (s : SupState),
    (List.foldl monitor_entry_state s l).users = s.users
  | [], _ => rfl
  | e :: rest, s => by
    rw [List.foldl_cons, monitor_fold_users rest _, monitor_entry_state_users]

/-- The monitor fold never raises anyone's running count. -/
theorem monitor_fold_count_le : ∀ (l : List (BotIdentity × BotInfo)) (s : SupState) (u : Nat),
    countOwned (List.foldl monitor_entry_state s l).runningBots u ≤ countOwned s.runningBots u
  | [], _, _ => Nat.le_refl _
  | e :: rest, s, u => by
    rw [List.foldl_cons]
    exact Nat.le_trans (monitor_fold_count_le rest _ u) (monitor_entry_state_count_le s e u)

/-- A monitor step cannot resurrect an absent registry key. -/
theorem monitor_entry_state_contains_false {s : SupState} {e : BotIdentity × BotInfo}
    {b : BotIdentity} (h : containsKey s.runningBots b = false) :
    containsKey (monitor_entry_state s e).runningBots b = false := by
  unfold monitor_entry_state
  cases monitor_entry_exit e.2
  · exact h
  · exact containsKey_eraseKey_of_false _ _ _ h

/-- Processing an exited entry removes its key. -/
theorem monitor_entry_state_removes {s : SupState} {b : BotIdentity} {info : BotInfo}
    (h : monitor_entry_exit info ≠ none) :
    containsKey (monitor_entry_state s (b, info)).runningBots b = false := by
  unfold monitor_entry_state
  cases hx : monitor_entry_exit info
  · exact absurd hx h
  · exact containsKey_eraseKey_self _ _

/-- A monitor step on an entry with a different key does not move this
key's registry binding. -/
theorem monitor_entry_state_lookup_ne {s : SupState} {e : BotIdentity × BotInfo}
    {b : BotIdentity} (h : e.1 ≠ b) :
    lookupBy (monitor_entry_state s e).runningBots b = lookupBy s.runningBots b := by
  unfold monitor_entry_state
  cases monitor_entry_exit e.2
  · rfl
  · exact lookup_eraseKey_ne _ _ _ (Ne.symm h)

/-- A monitor step on an entry with a different key does not move this
key's upload row. -/
theorem monitor_entry_state_uploads_ne {s : SupState} {e : BotIdentity × BotInfo}
    {b : BotIdentity} (h : e.1 ≠ b) :
    lookupBy (monitor_entry_state s e).uploads b = lookupBy s.uploads b := by
  unfold monitor_entry_state
  cases monitor_entry_exit e.2
  · rfl
  · exact lookup_updateKey_ne _ _ _ _ (Ne.symm h)

/-- Processing an exited entry stamps its upload row `stopped`. -/
theorem monitor_entry_state_uploads_self {s : SupState} {b : BotIdentity} {info : BotInfo}
    (h : monitor_entry_exit info ≠ none) :
    lookupBy (monitor_entry_state s (b, info)).uploads b
      = (lookupBy s.uploads b).map markStopped := by
  unfold monitor_entry_state
  cases hx : monitor_entry_exit info
  · exact absurd hx h
  · exact lookup_updateKey_self _ _ _

/-- A monitor step on an entry whose process has not exited is a no-op. -/
theorem monitor_entry_state_id {s : SupState} {e : BotIdentity × BotInfo}
    (h : monitor_entry_exit e.2 = none) : monitor_entry_state s e = s := by
  unfold monitor_entry_state
  rw [h]

/-- Absence of a registry key survives the whole monitor fold. -/
theorem monitor_fold_absent : ∀ (l : List (BotIdentity × BotInfo)) (s : SupState)
    (b : BotIdentity), containsKey s.runningBots b = false →
    containsKey (List.foldl monitor_entry_state s l).runningBots b = false
  | [], _, _, h => h
  | e :: rest, s, b, h =>
    monitor_fold_absent rest _ b (monitor_entry_state_contains_false h)

/-- Any registered entry whose process has exited is gone after one monitor
iteration over a snapshot containing it. -/
theorem monitor_fold_removes : ∀ (l : List (BotIdentity × BotInfo)) (s : SupState)
    (b : BotIdentity) (info : BotInfo), (b, info) ∈ l → monitor_entry_exit info ≠ none →
    containsKey (List.foldl monitor_entry_state s l).runningBots b = false := by
  intro l
  induction l with
  | nil => intro s b info h; simp at h
  | cons e rest ih =>
    intro s b info hm hx
    rw [List.foldl_cons]
    rcases List.mem_cons.mp hm with he | he
    · rw [← he]
      exact monitor_fold_absent rest _ b (monitor_entry_state_removes hx)
    · exact ih _ b info he hx

/-- Monitor steps whose keys all differ from `b` move neither `b`'s
registry binding nor `b`'s upload row. -/
theorem monitor_fold_other_keys : ∀ (l : List (BotIdentity × BotInfo)) (s : SupState)
    (b : BotIdentity), (∀ e ∈ l, e.1 ≠ b) →
    lookupBy (List.foldl monitor_entry_state s l).runningBots b = lookupBy s.runningBots b ∧
    lookupBy (List.foldl monitor_entry_state s l).uploads b = lookupBy s.uploads b
  | [], _, _, _ => ⟨rfl, rfl⟩
  | e :: rest, s, b, h => by
    rw [List.foldl_cons]
    have he := h e (List.mem_cons_self _ _)
    have ih := monitor_fold_other_keys rest (monitor_entry_state s e) b
      (fun x hx => h x (List.mem_cons_of_mem _ hx))
    exact ⟨ih.1.trans (monitor_entry_state_lookup_ne he),
      ih.2.trans (monitor_entry_state_uploads_ne he)⟩

/-- After a monitor iteration whose snapshot contains the exited entry
`(b, info)` with distinct keys, `b`'s upload row is stamped `stopped`. -/
theorem monitor_fold_uploads_stopped : ∀ (l : List (BotIdentity × BotInfo)) (s : SupState)
    (b : BotIdentity) (info : BotInfo), keysDistinct l = true → (b, info) ∈ l →
    monitor_entry_exit info ≠ none →
    lookupBy (List.foldl monitor_entry_state s l).uploads b
      = (lookupBy s.uploads b).map markStopped := by
  intro l
  induction l with
  | nil => intro s b info _ hm; simp at hm
  | cons e rest ih =>
    intro s b info hd hm hx
    obtain ⟨hc, hrest⟩ := keysDistinct_cons hd
    rw [List.foldl_cons]
    rcases List.mem_cons.mp hm with he | he
    · have hkey : e.1 = b := by rw [← he]
      have hothers : ∀ x ∈ rest, x.1 ≠ b := ne_of_containsKey_false (hkey ▸ hc)
      rw [(monitor_fold_other_keys rest _ b hothers).2, ← he]
      exact monitor_entry_state_uploads_self hx
    · have hkey : e.1 ≠ b := by
        intro hk
        have := containsKey_of_mem he
        rw [← hk] at this
        simp [this] at hc
      rw [ih _ b info hrest he hx, monitor_entry_state_uploads_ne hkey]

/-- Monitor steps skip entries that have not exited: if every snapshot
entry keyed `b` has not exited, `b`'s registry binding and upload row are
untouched. -/
theorem monitor_fold_keeps : ∀ (l : List (BotIdentity × BotInfo)) (s : SupState)
    (b : BotIdentity), (∀ e ∈ l, e.1 = b → monitor_entry_exit e.2 = none) →
    lookupBy (List.foldl monitor_entry_state s l).runningBots b = lookupBy s.runningBots b ∧
    lookupBy (List.foldl monitor_entry_state s l).uploads b = lookupBy s.uploads b
  | [], _, _, _ => ⟨rfl, rfl⟩
  | e :: rest, s, b, h => by
    rw [List.foldl_cons]
    have ih := monitor_fold_keeps rest (monitor_entry_state s e) b
      (fun x hx => h x (List.mem_cons_of_mem _ hx))
    by_cases hk : e.1 = b
    · rw [monitor_entry_state_id (h e (List.mem_cons_self _ _) hk)] at ih ⊢
      exact ih
    · exact ⟨ih.1.trans (monitor_entry_state_lookup_ne hk),
        ih.2.trans (monitor_entry_state_uploads_ne hk)⟩

/-- An entry that has not exited emits nothing. -/
theorem monitor_entry_trace_nil {e : BotIdentity × BotInfo}
    (h : monitor_entry_exit e.2 = none) : monitor_entry_trace e = [] := by
  unfold monitor_entry_trace
  rw [h]

/-- The chunk of an entry with a different key contains no crash
notification for `b`. -/
theorem monitor_entry_trace_filter_ne {e : BotIdentity × BotInfo} {b : BotIdentity}
    (h : e.1 ≠ b) : (monitor_entry_trace e).filter (notifyFor b) = [] := by
  unfold monitor_entry_trace
  cases monitor_entry_exit e.2
  · rfl
  · simp [notifyFor, List.filter, h]

/-- The chunk of the exited entry `(b, info)` contains exactly its own
crash notification for `b`. -/
theorem monitor_entry_trace_filter_self {b : BotIdentity} {info : BotInfo} {c : Int}
    (hx : monitor_entry_exit info = some c) :
    (monitor_entry_trace (b, info)).filter (notifyFor b)
      = [.notifyCrash info.userId b c] := by
  unfold monitor_entry_trace
  simp [hx, notifyFor, List.filter]

/-- A monitor iteration whose snapshot has no exited entry keyed `b` sends
no crash notification for `b`. -/
theorem monitor_trace_filter_none : ∀ (l : List (BotIdentity × BotInfo)) (b : BotIdentity),
    (∀ e ∈ l, e.1 = b → monitor_entry_exit e.2 = none) →
    ((l.map monitor_entry_trace).flatten).filter (notifyFor b) = []
  | [], _, _ => rfl
  | e :: rest, b, h => by
    simp only [List.map_cons, List.flatten_cons, List.filter_append]
    rw [monitor_trace_filter_none rest b (fun x hx => h x (List.mem_cons_of_mem _ hx))]
    by_cases hk : e.1 = b
    · rw [monitor_entry_trace_nil (h e (List.mem_cons_self _ _) hk)]
      rfl
    · rw [monitor_entry_trace_filter_ne hk]
      rfl

/-- Chunks of entries keyed other than `b` contribute no crash notification
for `b`. -/
theorem monitor_trace_filter_others : ∀ (l : List (BotIdentity × BotInfo)) (b : BotIdentity),
    (∀ e ∈ l, e.1 ≠ b) →
    ((l.map monitor_entry_trace).flatten).filter (notifyFor b) = []
  | [], _, _ => rfl
  | e :: rest, b, h => by
    simp only [List.map_cons, List.flatten_cons, List.filter_append]
    rw [monitor_trace_filter_others rest b (fun x hx => h x (List.mem_cons_of_mem _ hx)),
      monitor_entry_trace_filter_ne (h e (List.mem_cons_self _ _))]
    rfl

/-- With distinct keys, an exited entry `(b, info)` in the snapshot yields
exactly one crash notification for `b` in the whole iteration's trace. -/
theorem monitor_trace_filter_one : ∀ (l : List (BotIdentity × BotInfo)) (b : BotIdentity)
    (info : BotInfo) (c : Int), keysDistinct l = true → (b, info) ∈ l →
    monitor_entry_exit info = some c →
    ((l.map monitor_entry_trace).flatten).filter (notifyFor b)
      = [.notifyCrash info.userId b c] := by
  intro l
  induction l with
  | nil => intro b info c _ hm; simp at hm
  | cons e rest ih =>
    intro b info c hd hm hx
    obtain ⟨hc, hrest⟩ := keysDistinct_cons hd
    simp only [List.map_cons, List.flatten_cons, List.filter_append]
    rcases List.mem_cons.mp hm with he | he
    · have hkey : e.1 = b := by rw [← he]
      have hothers : ∀ x ∈ rest, x.1 ≠ b := ne_of_containsKey_false (hkey ▸ hc)
      rw [monitor_trace_filter_others rest b hothers, ← he,
        monitor_entry_trace_filter_self hx]
      rfl
    · have hkey : e.1 ≠ b := by
        intro hk
        have := containsKey_of_mem he
        rw [← hk] at this
        simp [this] at hc
      rw [ih b info c hrest he hx, monitor_entry_trace_filter_ne hkey]
      rfl

/-- Every event of a member chunk is in the iteration's trace. -/
theorem monitor_trace_mem {l : List (BotIdentity × BotInfo)} {e : BotIdentity × BotInfo}
    {x : Event} (he : e ∈ l) (hx : x ∈ monitor_entry_trace e) :
    x ∈ (l.map monitor_entry_trace).flatten :=
  List.mem_flatten.mpr ⟨monitor_entry_trace e, List.mem_map_of_mem _ he, hx⟩

/-- A status write and a registry mutation are different event kinds. -/
theorem statusKey_regMutKey_disjoint (e : Event) :
    statusKey e = none ∨ regMutKey e = none := by
  cases e <;> simp [statusKey, regMutKey]

/-- Growing the seen set keeps membership. -/
theorem memB_cons_of_memB {α : Type} [DecidableEq α] {seen : List α} {x : α} (y : α)
    (h : memB seen x = true) : memB (y :: seen) x = true := by
  unfold memB
  by_cases hy : y = x <;> simp [hy, h]

/-- The ordering check is monotone in the set of already-seen identities. -/
theorem wam_mono : ∀ (tr : List Event) (seen seen2 : List BotIdentity),
    (∀ x, memB seen x = true → memB seen2 x = true) →
    writesAfterMutations seen tr = true → writesAfterMutations seen2 tr = true
  | [], _, _, _, _ => rfl
  | e :: rest, seen, seen2, hsub, h => by
    unfold writesAfterMutations at h ⊢
    cases hs : statusKey e with
    | some b =>
      simp only [hs, Bool.and_eq_true] at h ⊢
      exact ⟨hsub b h.1, wam_mono rest seen seen2 hsub h.2⟩
    | none =>
      simp only [hs] at h ⊢
      cases hr : regMutKey e with
      | some b =>
        simp only [hr] at h ⊢
        refine wam_mono rest (b :: seen) (b :: seen2) ?_ h
        intro x hx
        unfold memB at hx ⊢
        by_cases hb : b = x
        · simp [hb]
        · simp only [if_neg hb] at hx ⊢
          exact hsub x hx
      | none =>
        simp only [hr] at h ⊢
        exact wam_mono rest seen seen2 hsub h

/-- The ordering check distributes over concatenation of traces that each
pass it on their own. -/
theorem wam_append : ∀ (t1 t2 : List Event) (seen : List BotIdentity),
    writesAfterMutations seen t1 = true → writesAfterMutations seen t2 = true →
    writesAfterMutations seen (t1 ++ t2) = true
  | [], _, _, _, h2 => h2
  | e :: t1, t2, seen, h1, h2 => by
    rw [List.cons_append]
    unfold writesAfterMutations at h1 ⊢
    cases hs : statusKey e with
    | some b =>
      simp only [hs, Bool.and_eq_true] at h1 ⊢
      exact ⟨h1.1, wam_append t1 t2 seen h1.2 h2⟩
    | none =>
      simp only [hs] at h1 ⊢
      cases hr : regMutKey e with
      | some b =>
        simp only [hr] at h1 ⊢
        exact wam_append t1 t2 (b :: seen) h1
          (wam_mono t2 seen (b :: seen) (fun x => memB_cons_of_memB b) h2)
      | none =>
        simp only [hr] at h1 ⊢
        exact wam_append t1 t2 seen h1 h2

/-- Each monitor chunk orders its status write after its registry removal. -/
theorem wam_monitor_chunk (seen : List BotIdentity) (e : BotIdentity × BotInfo) :
    writesAfterMutations seen (monitor_entry_trace e) = true := by
  unfold monitor_entry_trace
  cases monitor_entry_exit e.2
  · rfl
  · simp [writesAfterMutations, statusKey, regMutKey, memB]

/-- The whole monitor iteration trace passes the ordering check. -/
theorem wam_monitor_flat : ∀ (l : List (BotIdentity × BotInfo)),
    writesAfterMutations [] ((l.map monitor_entry_trace).flatten) = true
  | [] => rfl
  | e :: rest => by
    simp only [List.map_cons, List.flatten_cons]
    exact wam_append _ _ [] (wam_monitor_chunk [] e) (wam_monitor_flat rest)

/-- `start_bot` preserves the per-user quota invariant. -/
theorem quota_pres_start (env : StartEnv) (uid : Nat) (b : BotIdentity) (s : SupState)
    (u : Nat) (h : get_running_bots_count s u ≤ get_user_slots s u) :
    get_running_bots_count (start_bot env uid b s).state u
      ≤ get_user_slots (start_bot env uid b s).state u := by
  rcases start_bot_cases env uid b s with ⟨r, _, he⟩ | ⟨_, _, he⟩ | ⟨p, hg, _, he⟩
  · rw [he]; exact h
  · rw [he]; exact h
  · rw [he]
    obtain ⟨hown, _, hnc, hlt⟩ := start_guard_none hg
    show get_running_bots_count (start_commit env uid b p s) u
      ≤ get_user_slots (start_commit env uid b p s) u
    have hslots : get_user_slots (start_commit env uid b p s) u = get_user_slots s u :=
      get_user_slots_congr rfl u
    have hcount := countOwned_start_commit env uid b p s hnc u
    unfold get_running_bots_count at hlt h ⊢
    rw [hcount, hslots]
    by_cases hbu : b.owner = u
    · have hu : u = uid := by rw [← hbu, hown]
      subst hu
      rw [if_pos hbu]
      omega
    · rw [if_neg hbu]
      omega

/-- `stop_bot` preserves the per-user quota invariant. -/
theorem quota_pres_stop (uid : Nat) (b : BotIdentity) (s : SupState) (u : Nat)
    (h : get_running_bots_count s u ≤ get_user_slots s u) :
    get_running_bots_count (stop_bot uid b s).state u
      ≤ get_user_slots (stop_bot uid b s).state u := by
  rcases stop_bot_cases uid b s with ⟨hs, _, _⟩ | ⟨he, _, _⟩
  · rw [hs]; exact h
  · rw [he]
    show get_running_bots_count (stop_commit b s) u ≤ get_user_slots (stop_commit b s) u
    have hslots : get_user_slots (stop_commit b s) u = get_user_slots s u :=
      get_user_slots_congr rfl u
    rw [hslots]
    exact Nat.le_trans (countOwned_stop_commit_le b s u) h

/-- One monitor iteration preserves the per-user quota invariant. -/
theorem quota_pres_monitor (s : SupState) (u : Nat)
    (h : get_running_bots_count s u ≤ get_user_slots s u) :
    get_running_bots_count (monitor_bots_cycle s).1 u
      ≤ get_user_slots (monitor_bots_cycle s).1 u := by
  rw [monitor_cycle_fst]
  have hslots : get_user_slots (s.runningBots.foldl monitor_entry_state s) u
      = get_user_slots s u :=
    get_user_slots_congr (monitor_fold_users _ _) u
  rw [hslots]
  exact Nat.le_trans (monitor_fold_count_le _ _ _) h

/-- `download_bot` changes no state at all. -/
theorem download_bot_state (uid : Nat) (b : BotIdentity) (s : SupState) :
    (download_bot uid b s).state = s := by
  unfold download_bot
  split_ifs <;> rfl

/-- The three possible final states of the POST branch of `edit_bot`. -/
theorem edit_bot_state_cases (env : StartEnv) (uid : Nat) (b : BotIdentity)
    (code : String) (s : SupState) :
    (edit_bot env uid b code s).state = s ∨
    (edit_bot env uid b code s).state = edit_write b code s ∨
    (edit_bot env uid b code s).state
      = (start_bot env uid b (stop_bot uid b (edit_write b code s)).state).state := by
  simp only [edit_bot]
  split_ifs
  · exact Or.inl rfl
  · exact Or.inl rfl
  · exact Or.inl rfl
  · exact Or.inr (Or.inr rfl)
  · exact Or.inr (Or.inl rfl)

/-- `edit_bot` preserves the per-user quota invariant. -/
theorem quota_pres_edit (env : StartEnv) (uid : Nat) (b : BotIdentity) (code : String)
    (s : SupState) (u : Nat) (h : get_running_bots_count s u ≤ get_user_slots s u) :
    get_running_bots_count (edit_bot env uid b code s).state u
      ≤ get_user_slots (edit_bot env uid b code s).state u := by
  have h1 : get_running_bots_count (edit_write b code s) u
      ≤ get_user_slots (edit_write b code s) u := h
  rcases edit_bot_state_cases env uid b code s with he | he | he <;> rw [he]
  · exact h
  · exact h1
  · exact quota_pres_start env uid b _ u (quota_pres_stop uid b _ u h1)

/-- `delete_bot` preserves the per-user quota invariant. -/
theorem quota_pres_delete (uid : Nat) (b : BotIdentity) (s : SupState) (u : Nat)
    (h : get_running_bots_count s u ≤ get_user_slots s u) :
    get_running_bots_count (delete_bot uid b s).state u
      ≤ get_user_slots (delete_bot uid b s).state u := by
  simp only [delete_bot]
  split_ifs
  · exact h
  · exact quota_pres_stop uid b s u h
  · exact h

/-- C7: for every identity and every completed lifecycle transition
(`start_bot`, `stop_bot`, one crash-reconciliation iteration of
`monitor_bots`), every write-through of a persisted `uploads.status` in the
emitted effect trace is preceded by the corresponding `RUNNING_BOTS`
mutation for that same identity; no execution persists the new status
before the registry has changed. -/
theorem status_write_after_registry_mutation (env : StartEnv) (uid : Nat)
    (b : BotIdentity) (s : SupState) :
    writesAfterMutations [] (start_bot env uid b s).trace = true ∧
    writesAfterMutations [] (stop_bot uid b s).trace = true ∧
    writesAfterMutations [] (monitor_bots_cycle s).2 = true := by
  refine ⟨?_, ?_, ?_⟩
  · rcases start_bot_cases env uid b s with ⟨r, _, he⟩ | ⟨_, _, he⟩ | ⟨p, _, _, he⟩ <;>
      rw [he] <;> simp [writesAfterMutations, statusKey, regMutKey, memB]
  · rcases stop_bot_cases uid b s with ⟨_, ht, _⟩ | ⟨he, _, _⟩
    · rw [ht]
      rfl
    · rw [he]
      simp [writesAfterMutations, statusKey, regMutKey, memB]
  · rw [monitor_cycle_snd]
    exact wam_monitor_flat _

/-- C6: any registry entry whose process has exited with code `c` is, after
one iteration of the `monitor_bots` loop body, removed from `RUNNING_BOTS`;
its persisted status is stamped `stopped`; exactly one crash notification,
carrying `c`, goes to the owner; and a `bot_crashed` audit event is logged. -/
theorem monitor_crash_reconciles (s : SupState) (b : BotIdentity) (info : BotInfo)
    (p : ProcessSpec) (c : Int) (hwf : WF s)
    (hl : lookupBy s.runningBots b = some info) (hp : info.process = some p)
    (hc : p.exited = some c) (hu : info.userId = b.owner) :
    containsKey (monitor_bots_cycle s).1.runningBots b = false ∧
    lookupBy (monitor_bots_cycle s).1.uploads b = (lookupBy s.uploads b).map markStopped ∧
    (monitor_bots_cycle s).2.filter (notifyFor b) = [.notifyCrash b.owner b c] ∧
    Event.audit b.owner "bot_crashed" ∈ (monitor_bots_cycle s).2 := by
  have hexit : monitor_entry_exit info = some c := by simp [monitor_entry_exit, hp, hc]
  have hmem : (b, info) ∈ s.runningBots := mem_of_lookupBy hl
  refine ⟨?_, ?_, ?_, ?_⟩
  · rw [monitor_cycle_fst]
    exact monitor_fold_removes _ _ _ info hmem (by simp [hexit])
  · rw [monitor_cycle_fst]
    exact monitor_fold_uploads_stopped _ _ _ info hwf hmem (by simp [hexit])
  · rw [monitor_cycle_snd, monitor_trace_filter_one _ _ info c hwf hmem hexit, hu]
  · rw [monitor_cycle_snd, ← hu]
    refine monitor_trace_mem hmem ?_
    simp [monitor_entry_trace, hexit]

/-- Witness for C6: in `sDead`, the crashed `bA` (exit code 1) is reconciled
by one monitor iteration. -/
theorem monitor_crash_reconciles_witness :
    containsKey (monitor_bots_cycle sDead).1.runningBots bA = false ∧
    lookupBy (monitor_bots_cycle sDead).1.uploads bA
      = (lookupBy sDead.uploads bA).map markStopped ∧
    (monitor_bots_cycle sDead).2.filter (notifyFor bA) = [.notifyCrash bA.owner bA 1] ∧
    Event.audit bA.owner "bot_crashed" ∈ (monitor_bots_cycle sDead).2 :=
  monitor_crash_reconciles sDead bA infoDead pExit1 1 (by unfold WF; decide) (by decide)
    (by decide) (by decide) (by decide)

/-- C10 (implicit): one iteration of the monitor body removes an entry only
if a non-blocking poll of its stored process reports an exit; an entry whose
process is still running or whose handle is missing keeps its registry
binding and its persisted row, and triggers no crash notification. -/
theorem monitor_skips_live_entries (s : SupState) (b : BotIdentity) (info : BotInfo)
    (hwf : WF s) (hl : lookupBy s.runningBots b = some info)
    (hx : monitor_entry_exit info = none) :
    lookupBy (monitor_bots_cycle s).1.runningBots b = some info ∧
    lookupBy (monitor_bots_cycle s).1.uploads b = lookupBy s.uploads b ∧
    (monitor_bots_cycle s).2.filter (notifyFor b) = [] := by
  have hall : ∀ e ∈ s.runningBots, e.1 = b → monitor_entry_exit e.2 = none := by
    intro e he hk
    rw [val_eq_of_keysDistinct hwf hl e he hk]
    exact hx
  have hkeep := monitor_fold_keeps s.runningBots s b hall
  refine ⟨?_, ?_, ?_⟩
  · rw [monitor_cycle_fst, hkeep.1, hl]
  · rw [monitor_cycle_fst]
    exact hkeep.2
  · rw [monitor_cycle_snd]
    exact monitor_trace_filter_none _ _ hall

/-- Witness for C10: the live `bA` of `sOne` and the handle-less `bA` of
`sNoHandle` both survive a monitor iteration untouched. -/
theorem monitor_skips_live_entries_witness :
    (lookupBy (monitor_bots_cycle sOne).1.runningBots bA = some ⟨some pLive, 0, 5⟩ ∧
      lookupBy (monitor_bots_cycle sOne).1.uploads bA = lookupBy sOne.uploads bA ∧
      (monitor_bots_cycle sOne).2.filter (notifyFor bA) = []) ∧
    (lookupBy (monitor_bots_cycle sNoHandle).1.runningBots bA = some infoNoHandle ∧
      lookupBy (monitor_bots_cycle sNoHandle).1.uploads bA = lookupBy sNoHandle.uploads bA ∧
      (monitor_bots_cycle sNoHandle).2.filter (notifyFor bA) = []) :=
  ⟨monitor_skips_live_entries sOne bA ⟨some pLive, 0, 5⟩ (by unfold WF; decide) (by decide)
      (by decide),
    monitor_skips_live_entries sNoHandle bA infoNoHandle (by unfold WF; decide) (by decide)
      (by decide)⟩

/-- C1: `start_bot` admits a new entry only when the caller's current
`get_running_bots_count` is strictly below `get_user_slots`, returns the
slot-limit error with no spawn and no mutation otherwise, and consequently
every lifecycle operation preserves `count ≤ slots` for every user. -/
theorem start_quota_admission (env : StartEnv) (uid u : Nat) (b : BotIdentity)
    (code : String) (s : SupState) :
    (b.owner = uid → (lookupBy s.files b).isNone = false →
      containsKey s.runningBots b = false →
      get_user_slots s uid ≤ get_running_bots_count s uid →
      start_bot env uid b s = ⟨.quotaLimit (get_user_slots s uid), s, []⟩) ∧
    ((start_bot env uid b s).state.runningBots ≠ s.runningBots →
      get_running_bots_count s uid < get_user_slots s uid) ∧
    (get_running_bots_count s u ≤ get_user_slots s u →
      get_running_bots_count (start_bot env uid b s).state u
          ≤ get_user_slots (start_bot env uid b s).state u ∧
        get_running_bots_count (stop_bot uid b s).state u
          ≤ get_user_slots (stop_bot uid b s).state u ∧
        get_running_bots_count (edit_bot env uid b code s).state u
          ≤ get_user_slots (edit_bot env uid b code s).state u ∧
        get_running_bots_count (download_bot uid b s).state u
          ≤ get_user_slots (download_bot uid b s).state u ∧
        get_running_bots_count (delete_bot uid b s).state u
          ≤ get_user_slots (delete_bot uid b s).state u ∧
        get_running_bots_count (monitor_bots_cycle s).1 u
          ≤ get_user_slots (monitor_bots_cycle s).1 u) := by
  refine ⟨?_, ?_, ?_⟩
  · intro hown hf hreg hq
    apply start_bot_of_guard_some
    unfold start_guard
    rw [if_neg (by simp [hown]), if_neg (by simp [hf]), if_neg (by simp [hreg]), if_pos hq]
  · intro hne
    rcases start_bot_cases env uid b s with ⟨r, _, he⟩ | ⟨_, _, he⟩ | ⟨p, hg, _, he⟩
    · rw [he] at hne
      exact absurd rfl hne
    · rw [he] at hne
      exact absurd rfl hne
    · exact (start_guard_none hg).2.2.2
  · intro h
    exact ⟨quota_pres_start env uid b s u h, quota_pres_stop uid b s u h,
      quota_pres_edit env uid b code s u h,
      by rw [download_bot_state]; exact h,
      quota_pres_delete uid b s u h, quota_pres_monitor s u h⟩

/-- Witness for C1: with quota 1 and `bA` running, starting `bB` is refused
with the slot-limit error and no mutation; when a start does insert, the
count was strictly below the quota; and the invariant is preserved. -/
theorem start_quota_admission_witness :
    start_bot envOk 5 bB sOne = ⟨.quotaLimit 1, sOne, []⟩ ∧
    ((start_bot envOk 5 bA sRace).state.runningBots ≠ sRace.runningBots →
      get_running_bots_count sRace 5 < get_user_slots sRace 5) ∧
    get_running_bots_count (stop_bot 5 bA sOne).state 5
      ≤ get_user_slots (stop_bot 5 bA sOne).state 5 :=
  ⟨by
    have := (start_quota_admission envOk 5 5 bB "" sOne).1 (by decide) (by decide)
      (by decide) (by decide)
    simpa using this,
    (start_quota_admission envOk 5 5 bA "" sRace).2.1,
    ((start_quota_admission envOk 5 5 bA "" sOne).2.2 (by decide)).2.1⟩

/-- C3 counterexample: in `sGhost` the identity `bA` is registered and the
caller is its owner, yet `start_bot` answers `notFound` (the file-existence
check precedes the already-running check), not `alreadyRunning` as the
claim states. Such a state is reachable: `delete_bot` removes the file and
the row even when its internal `stop_bot` failed and left the entry. -/
theorem start_registered_missing_file_cex :
    bA.owner = 5 ∧ containsKey sGhost.runningBots bA = true ∧
    (start_bot envOk 5 bA sGhost).resp = .notFound ∧
    (start_bot envOk 5 bA sGhost).resp ≠ .alreadyRunning := by
  decide

/-- C3 amended: a start by the owner on a registered identity whose file
exists fails with `alreadyRunning`; if the file is missing it fails with
`notFound`; in both cases nothing is spawned, nothing is inserted, and the
persisted record is unchanged. -/
theorem start_on_registered_identity (env : StartEnv) (uid : Nat) (b : BotIdentity)
    (s : SupState) (hown : b.owner = uid) (hreg : containsKey s.runningBots b = true) :
    ((lookupBy s.files b).isNone = false →
      start_bot env uid b s = ⟨.alreadyRunning, s, []⟩) ∧
    ((lookupBy s.files b).isNone = true →
      start_bot env uid b s = ⟨.notFound, s, []⟩) := by
  constructor <;> intro hf <;> apply start_bot_of_guard_some <;> unfold start_guard
  · rw [if_neg (by simp [hown]), if_neg (by simp [hf]), if_pos hreg]
  · rw [if_neg (by simp [hown]), if_pos hf]

/-- Witness for C3 amended: both the file-present (`sOne`) and file-missing
(`sGhost`) cases at the concrete registered identity `bA`. -/
theorem start_on_registered_identity_witness :
    start_bot envOk 5 bA sOne = ⟨.alreadyRunning, sOne, []⟩ ∧
    start_bot envOk 5 bA sGhost = ⟨.notFound, sGhost, []⟩ :=
  ⟨(start_on_registered_identity envOk 5 bA sOne (by decide) (by decide)).1 (by decide),
    (start_on_registered_identity envOk 5 bA sGhost (by decide) (by decide)).2 (by decide)⟩

/-- C2 counterexample: in `sStuck` the registered `bA` has a handle whose
`terminate()` raises; `stop_bot` returns the 500 error and the entry is
still in `RUNNING_BOTS`, so a stop on a registered identity can return with
the entry still registered, contrary to the claim. -/
theorem stop_failed_leaves_entry_cex :
    containsKey sStuck.runningBots bA = true ∧
    (stop_bot 5 bA sStuck).resp = .stopFailed ∧
    containsKey (stop_bot 5 bA sStuck).state.runningBots bA = true ∧
    lookupBy (stop_bot 5 bA sStuck).state.uploads bA = some recA := by
  decide

/-- C2 amended: on a registered identity, `stop_bot` removes the entry and
persists `stopped` exactly when the handle cooperates (terminate does not
raise, and kill does not raise when the wait timed out); when terminate
raises, or kill raises after the timeout, the whole call is caught, a 500 is
returned, and the entry remains registered with no state change. -/
theorem stop_removes_entry_iff_handle_cooperates (uid : Nat) (b : BotIdentity)
    (s : SupState) (info : BotInfo) (p : ProcessSpec)
    (hown : ¬(b.owner ≠ uid ∧ uid ≠ ADMIN_ID))
    (hl : lookupBy s.runningBots b = some info) (hp : info.process = some p) :
    (p.terminateRaises = false → ¬(p.waitTimesOut = true ∧ p.killRaises = true) →
      (stop_bot uid b s).resp = .redirect ∧
      containsKey (stop_bot uid b s).state.runningBots b = false ∧
      lookupBy (stop_bot uid b s).state.uploads b
        = (lookupBy s.uploads b).map markStopped) ∧
    (p.terminateRaises = true ∨ (p.waitTimesOut = true ∧ p.killRaises = true) →
      stop_bot uid b s = ⟨.stopFailed, s, []⟩) := by
  constructor
  · intro ht hk
    rw [stop_bot_success hown hl hp ht hk]
    refine ⟨rfl, ?_, ?_⟩
    · exact containsKey_eraseKey_self _ _
    · exact lookup_updateKey_self _ _ _
  · intro hbad
    exact stop_bot_failure hown hl hp hbad

/-- Witness for C2 amended: the cooperative handle of `sOne` is removed and
stamped `stopped`; the raising handle of `sKill` yields the 500 with the
state unchanged. -/
theorem stop_removes_entry_iff_handle_cooperates_witness :
    ((stop_bot 5 bA sOne).resp = .redirect ∧
      containsKey (stop_bot 5 bA sOne).state.runningBots bA = false ∧
      lookupBy (stop_bot 5 bA sOne).state.uploads bA
        = (lookupBy sOne.uploads bA).map markStopped) ∧
    stop_bot 5 bA sKill = ⟨.stopFailed, sKill, []⟩ :=
  ⟨(stop_removes_entry_iff_handle_cooperates 5 bA sOne ⟨some pLive, 0, 5⟩ pLive
      (by decide) (by decide) (by decide)).1 (by decide) (by decide),
    (stop_removes_entry_iff_handle_cooperates 5 bA sKill ⟨some pKill, 0, 5⟩ pKill
      (by decide) (by decide) (by decide)).2 (by decide)⟩

/-- C4 counterexample: in `sKill` the registered `bA` has a handle whose
wait times out and whose `kill()` raises; the first `stop_bot` is not a
success and the second is not `notRunning`, so stop-twice is success then
`notRunning` only when the first stop actually succeeds. -/
theorem stop_twice_after_kill_failure_cex :
    containsKey sKill.runningBots bA = true ∧
    (stop_bot 5 bA sKill).resp = .stopFailed ∧
    (stop_bot 5 bA (stop_bot 5 bA sKill).state).resp = .stopFailed := by
  decide

/-- C4 amended: whenever a `stop_bot` call succeeds, an immediately repeated
call returns `notRunning` while changing no state and emitting nothing. -/
theorem stop_idempotent_after_success (uid : Nat) (b : BotIdentity) (s : SupState)
    (h : (stop_bot uid b s).resp = .redirect) :
    stop_bot uid b ((stop_bot uid b s).state)
      = ⟨.notRunning, (stop_bot uid b s).state, []⟩ := by
  obtain ⟨he, hown, _⟩ := stop_bot_redirect h
  simp only [he]
  unfold stop_bot
  rw [if_neg hown]
  have hnone : lookupBy (stop_commit b s).runningBots b = none := lookup_eraseKey_self _ _
  simp only [hnone]

/-- Witness for C4 amended: after the successful stop of `bA` in `sOne`, a
second stop answers `notRunning` without any change. -/
theorem stop_idempotent_after_success_witness :
    stop_bot 5 bA ((stop_bot 5 bA sOne).state)
      = ⟨.notRunning, (stop_bot 5 bA sOne).state, []⟩ :=
  stop_idempotent_after_success 5 bA sOne (by decide)

/-- C5 counterexample: the administrator (`ADMIN_ID`) starting another
user's stored, idle bot `bB` is refused with the access error, because
`start_bot`'s ownership check, unlike the other four handlers, has no
`ADMIN_ID` exemption; the same administrator is not refused by `stop_bot`. -/
theorem admin_has_no_start_waiver_cex :
    bB.owner = 5 ∧ ADMIN_ID ≠ 5 ∧
    start_bot envOk ADMIN_ID bB sPlain = ⟨.accessDenied, sPlain, []⟩ ∧
    (stop_bot ADMIN_ID bA sOne).resp ≠ .accessDenied := by
  decide

/-- C5 amended: a caller who is neither the owner nor the administrator is
refused with `accessDenied` and no state change by all five handlers; the
administrator is never refused by `stop_bot`, `edit_bot`, `download_bot` or
`delete_bot`, but `start_bot` refuses every non-owner, administrator
included. -/
theorem ownership_check_semantics (env : StartEnv) (uid : Nat) (b : BotIdentity)
    (code : String) (s : SupState) :
    ((b.owner ≠ uid ∧ uid ≠ ADMIN_ID) →
      start_bot env uid b s = ⟨.accessDenied, s, []⟩ ∧
      stop_bot uid b s = ⟨.accessDenied, s, []⟩ ∧
      edit_bot env uid b code s = ⟨.accessDenied, s, []⟩ ∧
      download_bot uid b s = ⟨.accessDenied, s, []⟩ ∧
      delete_bot uid b s = ⟨.accessDenied, s, []⟩) ∧
    (uid = ADMIN_ID →
      (stop_bot uid b s).resp ≠ .accessDenied ∧
      (edit_bot env uid b code s).resp ≠ .accessDenied ∧
      (download_bot uid b s).resp ≠ .accessDenied ∧
      (delete_bot uid b s).resp ≠ .accessDenied) ∧
    (b.owner ≠ uid → start_bot env uid b s = ⟨.accessDenied, s, []⟩) := by
  refine ⟨?_, ?_, ?_⟩
  · intro h
    refine ⟨?_, ?_, ?_, ?_, ?_⟩
    · apply start_bot_of_guard_some
      unfold start_guard
      rw [if_pos h.1]
    · unfold stop_bot
      rw [if_pos h]
    · unfold edit_bot
      rw [if_pos h]
    · unfold download_bot
      rw [if_pos h]
    · unfold delete_bot
      rw [if_pos h]
  · intro huid
    have hown : ¬(b.owner ≠ uid ∧ uid ≠ ADMIN_ID) := fun hh => hh.2 huid
    refine ⟨?_, ?_, ?_, ?_⟩
    · unfold stop_bot
      rw [if_neg hown]
      split
      · simp
      · split
        · simp
        · split
          · simp
          · split
            · simp
            · simp
    · simp only [edit_bot]
      rw [if_neg hown]
      split_ifs <;> simp
    · unfold download_bot
      rw [if_neg hown]
      split_ifs <;> simp
    · unfold delete_bot
      rw [if_neg hown]
      simp
  · intro h
    apply start_bot_of_guard_some
    unfold start_guard
    rw [if_pos h]

/-- Witness for C5 amended: user 9 (neither owner nor admin) is refused by
`stop_bot` with no change; the admin is not refused by `download_bot`; the
admin is still refused by `start_bot` on `bB`. -/
theorem ownership_check_semantics_witness :
    stop_bot 9 bA sOne = ⟨.accessDenied, sOne, []⟩ ∧
    (download_bot ADMIN_ID bA sOne).resp ≠ .accessDenied ∧
    start_bot envOk ADMIN_ID bB sPlain = ⟨.accessDenied, sPlain, []⟩ :=
  ⟨((ownership_check_semantics envOk 9 bA "" sOne).1 (by decide)).2.1,
    ((ownership_check_semantics envOk ADMIN_ID bA "" sOne).2.1 rfl).2.2.1,
    (ownership_check_semantics envOk ADMIN_ID bB "" sPlain).2.2 (by decide)⟩

/-- The restart branch of `edit_bot`, fully spelled out: file write, stop,
start, unconditional redirect, results of stop and start discarded. -/
theorem edit_bot_restart {env : StartEnv} {uid : Nat} {b : BotIdentity} {code : String}
    {s : SupState} (hown : ¬(b.owner ≠ uid ∧ uid ≠ ADMIN_ID))
    (hf : (lookupBy s.files b).isNone = false) (hcode : ¬(code = ""))
    (hrun : containsKey (edit_write b code s).runningBots b = true) :
    edit_bot env uid b code s = ⟨.redirect,
      (start_bot env uid b (stop_bot uid b (edit_write b code s)).state).state,
      .fileWrite b code ::
        ((stop_bot uid b (edit_write b code s)).trace ++
          (start_bot env uid b (stop_bot uid b (edit_write b code s)).state).trace ++
          [.audit uid "bot_edited"])⟩ := by
  simp only [edit_bot]
  rw [if_neg hown, if_neg (by simp [hf]), if_neg hcode, if_pos hrun]

/-- C8 counterexample: editing the running `bA` with an environment whose
spawn raises makes the restart's start phase fail, yet `edit_bot` answers
with the success redirect — the restart failure is not surfaced to the
caller, contrary to the claim. -/
theorem edit_restart_failure_swallowed_cex :
    containsKey sOne.runningBots bA = true ∧
    (edit_bot envNoSpawn 5 bA "new" sOne).resp = .redirect ∧
    containsKey (edit_bot envNoSpawn 5 bA "new" sOne).state.runningBots bA = false ∧
    lookupBy (edit_bot envNoSpawn 5 bA "new" sOne).state.files bA = some "new" := by
  decide

/-- C8 amended: editing a running bot saves the new source, then restarts it
as stop followed by start; if the start phase fails after the successful
stop, the bot stays out of the registry with its persisted status
`stopped`, and the saved source is not rolled back — but the failure is NOT
surfaced: `edit_bot` returns the success redirect regardless. -/
theorem edit_restart_outcome (env : StartEnv) (uid : Nat) (b : BotIdentity)
    (code : String) (s : SupState) (hown : b.owner = uid)
    (hf : (lookupBy s.files b).isNone = false) (hcode : ¬(code = ""))
    (hrun : containsKey s.runningBots b = true)
    (hstop : (stop_bot uid b (edit_write b code s)).resp = .redirect)
    (hstart :
      (start_bot env uid b (stop_bot uid b (edit_write b code s)).state).resp ≠ .redirect) :
    (edit_bot env uid b code s).resp = .redirect ∧
    lookupBy (edit_bot env uid b code s).state.files b
      = (lookupBy s.files b).map (fun _ => code) ∧
    containsKey (edit_bot env uid b code s).state.runningBots b = false ∧
    lookupBy (edit_bot env uid b code s).state.uploads b
      = (lookupBy s.uploads b).map markStopped := by
  have hown2 : ¬(b.owner ≠ uid ∧ uid ≠ ADMIN_ID) := fun hh => hh.1 hown
  have hrun1 : containsKey (edit_write b code s).runningBots b = true := hrun
  have he := @edit_bot_restart env uid b code s hown2 hf hcode hrun1
  obtain ⟨hstopEq, _, _⟩ := stop_bot_redirect hstop
  obtain ⟨hsse, _⟩ := start_bot_ne_redirect hstart
  refine ⟨?_, ?_, ?_, ?_⟩
  · simp only [he]
  · simp only [he]
    rw [hsse, hstopEq]
    simp only [stop_commit, edit_write]
    exact lookup_updateKey_self _ _ _
  · simp only [he]
    rw [hsse, hstopEq]
    simp only [stop_commit, edit_write]
    exact containsKey_eraseKey_self _ _
  · simp only [he]
    rw [hsse, hstopEq]
    simp only [stop_commit, edit_write]
    exact lookup_updateKey_self _ _ _

/-- Witness for C8 amended: the concrete failed restart of `bA` in `sOne`
under a raising spawn. -/
theorem edit_restart_outcome_witness :
    (edit_bot envNoSpawn 5 bA "new" sOne).resp = .redirect ∧
    lookupBy (edit_bot envNoSpawn 5 bA "new" sOne).state.files bA
      = (lookupBy sOne.files bA).map (fun _ => "new") ∧
    containsKey (edit_bot envNoSpawn 5 bA "new" sOne).state.runningBots bA = false ∧
    lookupBy (edit_bot envNoSpawn 5 bA "new" sOne).state.uploads bA
      = (lookupBy sOne.uploads bA).map markStopped :=
  edit_restart_outcome envNoSpawn 5 bA "new" sOne (by decide) (by decide)
    (by decide) (by decide) (by decide) (by decide)

/-- C9: the registry offers no mutual exclusion, so two `start_bot` calls
racing on the same identity can interleave check, spawn and insert so that
both report success and two child processes are created for one identity —
while a serialized execution of the same two calls yields one success and
one `alreadyRunning`. The schedule lets both threads pass the guard cascade
before either inserts. -/
theorem start_race_two_processes :
    (race_run envOk 5 bA [false, true, false, false, true, true]
        ⟨sRace, .ready, .ready, 0⟩).t0 = .phaseDone .redirect ∧
    (race_run envOk 5 bA [false, true, false, false, true, true]
        ⟨sRace, .ready, .ready, 0⟩).t1 = .phaseDone .redirect ∧
    (race_run envOk 5 bA [false, true, false, false, true, true]
        ⟨sRace, .ready, .ready, 0⟩).spawned = 2 ∧
    (start_bot envOk 5 bA sRace).resp = .redirect ∧
    (start_bot envOk 5 bA (start_bot envOk 5 bA sRace).state).resp = .alreadyRunning := by
  decide
